import Mathlib

/-!
Verification of the Zigbee bootstrap / data-exchange / QoS-accounting logic of
`scratch/wifi-zigbee.cc`.

The program's process-wide mutable state (`g_joinedCount`, `g_networkReady`,
`qosMap`, `receivedTracker`, `g_seqNo`) is embedded as `SimState`.  The event
handlers that mutate it (`NwkJoinConfirm`, `SendDataPeriod`,
`NwkDataIndication`) and the pure ones (`NwkNetworkDiscoveryConfirm`, the PDR
computation of `PrintZigbeeQoS`) are translated one by one.  A run of the
discrete-event simulator is modelled as a list of handler-invocation events
folded over the state; scheduling side effects (`Simulator::ScheduleNow`,
`Simulator::Schedule`, packet hand-off to the NWK layer) are recorded as
explicit `Action` values returned next to the new state.

Modelling conventions:
* C++ `std::map`/`operator[]` with default-constructed values is embedded as a
  total function with the all-zero `QoSInfo` as default.
* The nested `std::map<uint32_t, std::map<uint32_t, std::set<uint32_t>>>`
  dedup tracker is embedded as a duplicate-free list of
  (destination, source, sequence) triples: the source only ever queries
  membership of one triple (`seqSet.count(seqNo) > 0`) and inserts one triple
  (`seqSet.insert(seqNo)`), and on that interface the two representations
  coincide.
* `uint32_t` values are `Nat` with an explicit `% 2^32` where the source can
  overflow: the `g_seqNo++` counter and the `sentPackets += 1` /
  `recvPackets += 1` QoS counters all wrap at `2^32` and are reduced at their
  increment sites; `g_joinedCount++` is left un-reduced because the success
  handler compares it against the threshold 4 after each single increment, so
  it can never pass 4 without the equality firing first.
* `double` time stamps travel through the payload as their raw 8 bytes
  (`memcpy` of the 64-bit pattern); we carry them as `Nat` bit patterns below
  `2^64`.  IEEE-754 arithmetic is not modelled: no claim verified here depends
  on the numeric value of `sumDelays`, only on whether the field is mutated,
  so the accumulated `delay = recvTime - sendTime` uses integer subtraction of
  the patterns as a concrete computable stand-in.  The LQI is a `uint8_t`
  promoted to `double`; sums of values below 256 are exact in binary64 over
  any feasible run length, so `sumLqi` is a `Nat`.
* Byte order of `memcpy` is little-endian, as on the x86 hosts the simulation
  targets; the round-trip results are independent of that choice as long as
  sender and receiver agree, which they do by construction.
-/

namespace WifiZigbee

/-- `static const uint32_t g_totalDevices = 5;` -/
def g_totalDevices : Nat := 5

/-- `static const uint16_t c_zigbeeBufferSize = 64;` -/
def c_zigbeeBufferSize : Nat := 64

/-- `struct QoSInfo` : per-destination QoS accumulator.  `sentPackets` and
`recvPackets` are `uint32_t` in the source; their wrap at `2^32` is applied at
the increment sites in `SendDataPeriod` and `NwkDataIndication`. -/
structure QoSInfo where
  sentPackets : Nat := 0
  recvPackets : Nat := 0
  sumDelays : Int := 0
  sumLqi : Nat := 0
deriving DecidableEq, Repr

/-- The process-wide mutable globals of `wifi-zigbee.cc`. -/
structure SimState where
  g_joinedCount : Nat
  g_networkReady : Bool
  qosMap : Nat → QoSInfo
  receivedTracker : List (Nat × Nat × Nat)
  g_seqNo : Nat

/-- The state at program start: all counters zero, no tracker entries,
readiness false. -/
def initState : SimState :=
  { g_joinedCount := 0
    g_networkReady := false
    qosMap := fun _ => {}
    receivedTracker := []
    g_seqNo := 0 }

/-! ### Byte-level payload codec

`SendDataPeriod` builds the packet with
`memcpy(buf + 0, &srcNodeId, 4); memcpy(buf + 4, &g_seqNo, 4);
memcpy(buf + 8, &nowSeconds, 8);` and `NwkDataIndication` reads the same three
fields back with the mirror-image `memcpy` calls. -/

/-- The 4 little-endian bytes of a `uint32_t` (truncates at `2^32` exactly as
the machine store does). -/
def encodeU32LE (n : Nat) : List Nat :=
  [n % 256, n / 256 % 256, n / 65536 % 256, n / 16777216 % 256]

/-- Reassemble a `uint32_t` from its 4 little-endian bytes. -/
def decodeU32LE : List Nat → Nat
  | b0 :: b1 :: b2 :: b3 :: _ => b0 + 256 * b1 + 65536 * b2 + 16777216 * b3
  | _ => 0

/-- The 8 little-endian bytes of a 64-bit pattern (here: the bits of the
`double nowSeconds`). -/
def encodeU64LE (n : Nat) : List Nat :=
  [n % 256, n / 256 % 256, n / 65536 % 256, n / 16777216 % 256,
   n / 4294967296 % 256, n / 1099511627776 % 256,
   n / 281474976710656 % 256, n / 72057594037927936 % 256]

/-- Reassemble a 64-bit pattern from its 8 little-endian bytes. -/
def decodeU64LE : List Nat → Nat
  | b0 :: b1 :: b2 :: b3 :: b4 :: b5 :: b6 :: b7 :: _ =>
      b0 + 256 * b1 + 65536 * b2 + 16777216 * b3 + 4294967296 * b4 +
      1099511627776 * b5 + 281474976710656 * b6 + 72057594037927936 * b7
  | _ => 0

/-- `memcpy(&srcNodeId, header + 0, 4)` of `NwkDataIndication`. -/
def headerSrcId (payload : List Nat) : Nat :=
  decodeU32LE (payload.take 4)

/-- `memcpy(&seqNo, header + 4, 4)` of `NwkDataIndication`. -/
def headerSeq (payload : List Nat) : Nat :=
  decodeU32LE ((payload.drop 4).take 4)

/-- `memcpy(&sendTime, header + 8, 8)` of `NwkDataIndication` (bit pattern of
the embedded `double`). -/
def headerTimeBits (payload : List Nat) : Nat :=
  decodeU64LE ((payload.drop 8).take 8)

/-- The `uint8_t buf[c_zigbeeBufferSize]` of `SendDataPeriod`: the 16-byte
header followed by the remaining 48 bytes of the stack buffer, whose contents
the source never initialises — they are supplied here as the arbitrary list
`pad`, padded/truncated to the fixed buffer size. -/
def buildPayload (srcNodeId seqNo nowBits : Nat) (pad : List Nat) : List Nat :=
  encodeU32LE srcNodeId ++ encodeU32LE seqNo ++ encodeU64LE nowBits ++
    (pad.take (c_zigbeeBufferSize - 16) ++
      List.replicate (c_zigbeeBufferSize - 16 - pad.length) 0)

/-! ### Handlers -/

/-- Scheduling / transport side effects a handler performs, in program order.
Log statements, which mutate nothing, are not recorded. -/
inductive Action where
  | startRouterRequest
  | sendPacket (dst : Nat) (payload : List Nat)
  | rescheduleSend (src dst : Nat)
deriving DecidableEq, Repr

/-- `NwkJoinConfirm`: on `SUCCESS`, `++g_joinedCount`, set `g_networkReady`
when the updated counter equals `g_totalDevices - 1`, and `ScheduleNow` an
`NlmeStartRouterRequest`; on failure, only `NS_LOG_ERROR`. -/
def NwkJoinConfirm (st : SimState) (success : Bool) : SimState × List Action :=
  if success then
    let joined := st.g_joinedCount + 1
    let ready := if joined = g_totalDevices - 1 then true else st.g_networkReady
    ({ st with g_joinedCount := joined, g_networkReady := ready },
     [Action.startRouterRequest])
  else
    (st, [])

/-- A discovered-network descriptor (`NetworkDescriptor` fields actually read
by the script). -/
structure NetDescriptor where
  m_extPanId : Nat
  m_logCh : Nat
  m_panId : Nat
  m_stackProfile : Nat
deriving DecidableEq, Repr

/-- Control outcome of `NwkNetworkDiscoveryConfirm`. -/
inductive DiscoveryOutcome where
  | joinRequest (extendedPanId : Nat)
  | abortRun
  | indexOutOfBounds
deriving DecidableEq, Repr

/-- `NwkNetworkDiscoveryConfirm`: on `SUCCESS` it reads
`params.m_netDescList[0].m_extPanId` — without checking that the list is
non-empty, so the empty-list case is the undefined out-of-bounds access,
embedded as the explicit `indexOutOfBounds` outcome — and schedules an
`NlmeJoinRequest` with that extended PAN id; otherwise `NS_ABORT_MSG`. -/
def NwkNetworkDiscoveryConfirm (success : Bool) (netDescList : List NetDescriptor) :
    DiscoveryOutcome :=
  if success then
    match netDescList with
    | [] => DiscoveryOutcome.indexOutOfBounds
    | d :: _ => DiscoveryOutcome.joinRequest d.m_extPanId
  else
    DiscoveryOutcome.abortRun

/-- `SendDataPeriod`: returns immediately (no reschedule) when
`!g_networkReady`; otherwise builds the payload from the current `g_seqNo`,
increments `g_seqNo` (a `uint32_t`, hence mod `2^32`) and the destination's
`sentPackets`, hands the packet to `NldeDataRequest` and reschedules itself.
The `c_zigbeeBufferSize < 16` abort guard is statically false (64 ≥ 16) and
therefore not reached. -/
def SendDataPeriod (st : SimState) (srcNodeId destNodeId : Nat)
    (nowBits : Nat) (pad : List Nat) : SimState × List Action :=
  if !st.g_networkReady then
    (st, [])
  else
    let payload := buildPayload srcNodeId st.g_seqNo nowBits pad
    let st' := { st with
      g_seqNo := (st.g_seqNo + 1) % 4294967296,
      qosMap := fun d =>
        if d = destNodeId then
          { st.qosMap destNodeId with
            sentPackets := ((st.qosMap destNodeId).sentPackets + 1) % 4294967296 }
        else st.qosMap d }
    (st', [Action.sendPacket destNodeId payload,
           Action.rescheduleSend srcNodeId destNodeId])

/-- `NwkDataIndication`: drop payloads shorter than the 16-byte header; parse
the header; drop duplicates recorded in `receivedTracker`; otherwise record
the triple and accumulate the destination's QoS fields. -/
def NwkDataIndication (st : SimState) (destNodeId : Nat) (payload : List Nat)
    (lqi : Nat) (nowBits : Nat) : SimState :=
  if payload.length < 16 then
    st
  else
    let srcNodeId := headerSrcId payload
    let seqNo := headerSeq payload
    let sendBits := headerTimeBits payload
    if (destNodeId, srcNodeId, seqNo) ∈ st.receivedTracker then
      st
    else
      let delay : Int := (nowBits : Int) - (sendBits : Int)
      { st with
        receivedTracker := (destNodeId, srcNodeId, seqNo) :: st.receivedTracker,
        qosMap := fun d =>
          if d = destNodeId then
            { st.qosMap destNodeId with
              recvPackets := ((st.qosMap destNodeId).recvPackets + 1) % 4294967296,
              sumDelays := (st.qosMap destNodeId).sumDelays + delay,
              sumLqi := (st.qosMap destNodeId).sumLqi + lqi }
          else st.qosMap d }

/-! ### The final report (`PrintZigbeeQoS`) -/

/-- `double pdr = 0.0; if (sent > 0) { pdr = double(recv) / double(sent); }` -/
def pdrOf (info : QoSInfo) : ℚ :=
  if info.sentPackets > 0 then (info.recvPackets : ℚ) / (info.sentPackets : ℚ)
  else 0

/-- `avgDelay = info.sumDelays / double(recv)` guarded by `recv > 0`. -/
def avgDelayOf (info : QoSInfo) : ℚ :=
  if info.recvPackets > 0 then (info.sumDelays : ℚ) / (info.recvPackets : ℚ)
  else 0

/-- `avgLqi = info.sumLqi / double(recv)` guarded by `recv > 0`. -/
def avgLqiOf (info : QoSInfo) : ℚ :=
  if info.recvPackets > 0 then (info.sumLqi : ℚ) / (info.recvPackets : ℚ)
  else 0

/-! ### Run semantics

A run is a list of handler invocations (events) delivered by the
discrete-event scheduler, folded over the global state. -/

/-- One handler invocation, with the parameters the external stack passes. -/
inductive Event where
  | formationConfirm (success : Bool)
  | discoveryConfirm (success : Bool) (netDescList : List NetDescriptor)
  | joinConfirm (success : Bool)
  | routeDiscoveryConfirm (success : Bool)
  | sendPeriod (srcNodeId destNodeId : Nat) (nowBits : Nat) (pad : List Nat)
  | dataIndication (destNodeId : Nat) (payload : List Nat) (lqi : Nat) (nowBits : Nat)

/-- Dispatch one event to its handler.  `NwkNetworkFormationConfirm`,
`NwkNetworkDiscoveryConfirm` and `NwkRouteDiscoveryConfirm` touch none of the
global state. -/
def step (st : SimState) : Event → SimState × List Action
  | Event.formationConfirm _ => (st, [])
  | Event.discoveryConfirm _ _ => (st, [])
  | Event.joinConfirm s => NwkJoinConfirm st s
  | Event.routeDiscoveryConfirm _ => (st, [])
  | Event.sendPeriod src dst now pad => SendDataPeriod st src dst now pad
  | Event.dataIndication dst p lqi now => (NwkDataIndication st dst p lqi now, [])

/-- Fold a whole event trace over the state. -/
def run (st : SimState) : List Event → SimState
  | [] => st
  | e :: es => run (step st e).1 es

/-- The packets one event hands to the transport, as (destination, payload). -/
def sentOf (st : SimState) (e : Event) : List (Nat × List Nat) :=
  (step st e).2.filterMap fun a =>
    match a with
    | Action.sendPacket dst payload => some (dst, payload)
    | _ => none

/-- All packets handed to the transport along a trace, in send order. -/
def sendLog (st : SimState) : List Event → List (Nat × List Nat)
  | [] => []
  | e :: es => sentOf st e ++ sendLog (step st e).1 es

/-- The sequence-number fields carried by a list of sent packets. -/
def seqsOf (log : List (Nat × List Nat)) : List Nat :=
  log.map fun r => headerSeq r.2

/-- Head condition of trace well-formedness: a data indication may only
deliver the byte content of a packet previously handed to the transport for
that destination (`log`); other events are unconstrained. -/
def deliveredOk (log : List (Nat × List Nat)) : Event → Bool
  | Event.dataIndication dst payload _ _ => decide ((dst, payload) ∈ log)
  | _ => true

/-- Network model: a trace is well formed (relative to the packets already in
flight, `log`) when every `NldeDataIndication` delivers to its destination the
byte content of a packet previously handed to the transport for that
destination — the NWK layer may duplicate, delay or drop packets but not
fabricate or corrupt them. -/
def wfTrace (st : SimState) (log : List (Nat × List Nat)) : List Event → Bool
  | [] => true
  | e :: es => deliveredOk log e && wfTrace (step st e).1 (log ++ sentOf st e) es

/-! ### Codec round-trip lemmas -/

theorem decode_encode_u32 (n : Nat) (h : n < 4294967296) :
    decodeU32LE (encodeU32LE n) = n := by
  simp only [encodeU32LE, decodeU32LE]
  omega

theorem decode_encode_u64 (n : Nat) (h : n < 18446744073709551616) :
    decodeU64LE (encodeU64LE n) = n := by
  simp only [encodeU64LE, decodeU64LE]
  omega

theorem headerSrcId_buildPayload (s q t : Nat) (pad : List Nat)
    (hs : s < 4294967296) :
    headerSrcId (buildPayload s q t pad) = s := by
  have : (buildPayload s q t pad).take 4 = encodeU32LE s := by
    simp [buildPayload, encodeU32LE, List.take]
  rw [headerSrcId, this, decode_encode_u32 s hs]

theorem headerSeq_buildPayload (s q t : Nat) (pad : List Nat)
    (hq : q < 4294967296) :
    headerSeq (buildPayload s q t pad) = q := by
  have : ((buildPayload s q t pad).drop 4).take 4 = encodeU32LE q := by
    simp [buildPayload, encodeU32LE, List.drop, List.take]
  rw [headerSeq, this, decode_encode_u32 q hq]

theorem headerTimeBits_buildPayload (s q t : Nat) (pad : List Nat)
    (ht : t < 18446744073709551616) :
    headerTimeBits (buildPayload s q t pad) = t := by
  have : ((buildPayload s q t pad).drop 8).take 8 = encodeU64LE t := by
    simp [buildPayload, encodeU32LE, encodeU64LE, List.drop, List.take]
  rw [headerTimeBits, this, decode_encode_u64 t ht]

theorem length_buildPayload (s q t : Nat) (pad : List Nat) :
    (buildPayload s q t pad).length = c_zigbeeBufferSize := by
  simp [buildPayload, encodeU32LE, encodeU64LE, c_zigbeeBufferSize]
  omega

/-! ### Claim theorems -/

/-- Claim C3: every success-status invocation of `NwkJoinConfirm` increments
the process-wide joined counter by one, sets the readiness flag exactly when
the updated counter reaches `g_totalDevices - 1` (leaving it unchanged
otherwise), and immediately issues a become-router request; every
failure-status invocation leaves the entire state unchanged and performs no
action at all (no retry, no counter change, no router request) — the device's
failure is only reported, leaving it terminally unjoined. -/
theorem joinConfirm_branches (st : SimState) :
    (NwkJoinConfirm st true).1.g_joinedCount = st.g_joinedCount + 1 ∧
    (NwkJoinConfirm st true).1.g_networkReady =
      (if st.g_joinedCount + 1 = g_totalDevices - 1 then true
       else st.g_networkReady) ∧
    (NwkJoinConfirm st true).1.qosMap = st.qosMap ∧
    (NwkJoinConfirm st true).1.receivedTracker = st.receivedTracker ∧
    (NwkJoinConfirm st true).1.g_seqNo = st.g_seqNo ∧
    (NwkJoinConfirm st true).2 = [Action.startRouterRequest] ∧
    NwkJoinConfirm st false = (st, []) := by
  simp [NwkJoinConfirm]

/-- Claim C5: `NwkNetworkDiscoveryConfirm` with success status and a non-empty
network list issues a join request with exactly the first descriptor's
extended PAN id (no scoring or tie-break), and with failure status it aborts
the run fatally. -/
theorem discoveryConfirm_first_or_abort (d : NetDescriptor)
    (rest netDescList : List NetDescriptor) :
    NwkNetworkDiscoveryConfirm true (d :: rest) =
      DiscoveryOutcome.joinRequest d.m_extPanId ∧
    NwkNetworkDiscoveryConfirm false netDescList = DiscoveryOutcome.abortRun := by
  simp [NwkNetworkDiscoveryConfirm]

/-- Claim C10: the success branch of `NwkNetworkDiscoveryConfirm` reads
element 0 of the discovered-network list unconditionally, so it hits the
out-of-bounds access exactly when the list is empty: a success confirmation
is safe precisely under the precondition that it carries at least one
descriptor. -/
theorem discoveryConfirm_empty_oob (netDescList : List NetDescriptor) :
    NwkNetworkDiscoveryConfirm true netDescList =
      DiscoveryOutcome.indexOutOfBounds ↔ netDescList = [] := by
  cases netDescList <;> simp [NwkNetworkDiscoveryConfirm]

/-- Claim C7: a data indication whose payload is shorter than the 16-byte
header is dropped without any state change: the QoS map (hence
`recvPackets`, `sumDelays`, `sumLqi` of every destination) and the dedup
tracker are exactly as before, and the handler is a total function (no
crash). -/
theorem dataIndication_short_payload_noop (st : SimState) (dst : Nat)
    (payload : List Nat) (lqi nowBits : Nat) (h : payload.length < 16) :
    NwkDataIndication st dst payload lqi nowBits = st := by
  rw [NwkDataIndication, if_pos h]

/-- Witness for C7: a 10-byte payload is dropped with no state change. -/
theorem dataIndication_short_payload_noop_witness :
    NwkDataIndication initState 2 (List.replicate 10 7) 200 5 = initState :=
  dataIndication_short_payload_noop initState 2 (List.replicate 10 7) 200 5
    (by decide)

/-- Claim C8: invoking `SendDataPeriod` while the readiness flag is false is a
complete no-op: the state (sequence counter, every QoS accumulator) is
unchanged and no action is performed — no packet is handed to the transport
and, in this variant, the call does not reschedule itself. -/
theorem sendDataPeriod_not_ready_noop (st : SimState) (src dst nowBits : Nat)
    (pad : List Nat) (h : st.g_networkReady = false) :
    SendDataPeriod st src dst nowBits pad = (st, []) := by
  simp [SendDataPeriod, h]

/-- Witness for C8: a concrete not-ready invocation is a no-op. -/
theorem sendDataPeriod_not_ready_noop_witness :
    SendDataPeriod initState 0 1 42 [] = (initState, []) :=
  sendDataPeriod_not_ready_noop initState 0 1 42 [] rfl

/-- Claim C9: every packet the periodic sender actually emits (readiness
true) carries a payload whose first 16 bytes, parsed exactly as
`NwkDataIndication` parses them, recover the embedded source node id, the
sequence number in force at the send, and the origination-time bit pattern;
the payload is never shorter than the header.  The bounds are the machine
types of the source: `srcNodeId` and `g_seqNo` are `uint32_t`, the embedded
time is one 64-bit `double` pattern. -/
theorem payload_header_roundtrip (st : SimState) (src dst nowBits : Nat)
    (pad : List Nat) (hready : st.g_networkReady = true)
    (hs : src < 4294967296) (hq : st.g_seqNo < 4294967296)
    (ht : nowBits < 18446744073709551616) :
    (SendDataPeriod st src dst nowBits pad).2 =
      [Action.sendPacket dst (buildPayload src st.g_seqNo nowBits pad),
       Action.rescheduleSend src dst] ∧
    headerSrcId (buildPayload src st.g_seqNo nowBits pad) = src ∧
    headerSeq (buildPayload src st.g_seqNo nowBits pad) = st.g_seqNo ∧
    headerTimeBits (buildPayload src st.g_seqNo nowBits pad) = nowBits ∧
    ¬ (buildPayload src st.g_seqNo nowBits pad).length < 16 := by
  refine ⟨by simp [SendDataPeriod, hready], headerSrcId_buildPayload _ _ _ _ hs,
    headerSeq_buildPayload _ _ _ _ hq, headerTimeBits_buildPayload _ _ _ _ ht, ?_⟩
  rw [length_buildPayload]
  decide

/-- Witness for C9: concrete send with src 3, seq 7, time pattern 99. -/
theorem payload_header_roundtrip_witness :
    (SendDataPeriod { initState with g_networkReady := true, g_seqNo := 7 }
        3 1 99 []).2 =
      [Action.sendPacket 1 (buildPayload 3 7 99 []),
       Action.rescheduleSend 3 1] ∧
    headerSrcId (buildPayload 3 7 99 []) = 3 ∧
    headerSeq (buildPayload 3 7 99 []) = 7 ∧
    headerTimeBits (buildPayload 3 7 99 []) = 99 ∧
    ¬ (buildPayload 3 7 99 []).length < 16 :=
  payload_header_roundtrip _ 3 1 99 [] rfl (by decide) (by decide) (by decide)

/-- Claim C1: repeated delivery of a payload carrying an already-recorded
(destination, source, sequenceNumber) triple is a no-op.  After one
invocation of `NwkDataIndication` on a parseable payload, a second invocation
at the same destination with any parseable payload carrying the same source
id and sequence number (link quality and receive time may differ) returns the
state of the first invocation unchanged — same QoS accumulator
(`recvPackets`, `sumDelays`, `sumLqi`) and same dedup tracker — and across
the two invocations `recvPackets` grows by at most one. -/
theorem dataIndication_duplicate_idempotent (st : SimState) (dst : Nat)
    (p p2 : List Nat) (lqi lqi2 nowBits nowBits2 : Nat)
    (hp : ¬ p.length < 16) (hp2 : ¬ p2.length < 16)
    (hsrc : headerSrcId p2 = headerSrcId p)
    (hseq : headerSeq p2 = headerSeq p) :
    NwkDataIndication (NwkDataIndication st dst p lqi nowBits) dst p2 lqi2
        nowBits2 =
      NwkDataIndication st dst p lqi nowBits ∧
    ((NwkDataIndication st dst p lqi nowBits).qosMap dst).recvPackets ≤
      (st.qosMap dst).recvPackets + 1 := by
  by_cases hmem : (dst, headerSrcId p, headerSeq p) ∈ st.receivedTracker
  · have h1 : NwkDataIndication st dst p lqi nowBits = st := by
      simp [NwkDataIndication, hp, hmem]
    rw [h1]
    constructor
    · simp [NwkDataIndication, hp2, hsrc, hseq, hmem]
    · exact Nat.le_succ _
  · have h1 : NwkDataIndication st dst p lqi nowBits =
        { st with
          receivedTracker :=
            (dst, headerSrcId p, headerSeq p) :: st.receivedTracker,
          qosMap := fun d =>
            if d = dst then
              { st.qosMap dst with
                recvPackets := ((st.qosMap dst).recvPackets + 1) % 4294967296,
                sumDelays := (st.qosMap dst).sumDelays +
                  ((nowBits : Int) - (headerTimeBits p : Int)),
                sumLqi := (st.qosMap dst).sumLqi + lqi }
            else st.qosMap d } := by
      simp [NwkDataIndication, hp, hmem]
    rw [h1]
    constructor
    · simp [NwkDataIndication, hp2, hsrc, hseq]
    · simpa using Nat.mod_le ((st.qosMap dst).recvPackets + 1) 4294967296

/-- Witness for C1: delivering the same (dest 1, src 3, seq 7) packet twice
from the initial state leaves the post-first-delivery state untouched. -/
theorem dataIndication_duplicate_idempotent_witness :
    NwkDataIndication
        (NwkDataIndication initState 1 (buildPayload 3 7 99 []) 200 5) 1
        (buildPayload 3 7 111 []) 180 6 =
      NwkDataIndication initState 1 (buildPayload 3 7 99 []) 200 5 ∧
    ((NwkDataIndication initState 1 (buildPayload 3 7 99 []) 200 5).qosMap
        1).recvPackets ≤
      (initState.qosMap 1).recvPackets + 1 :=
  dataIndication_duplicate_idempotent initState 1 (buildPayload 3 7 99 [])
    (buildPayload 3 7 111 []) 200 180 5 6 (by decide) (by decide) (by decide)
    (by decide)

lemma dataIndication_ready (st : SimState) (dst : Nat) (p : List Nat)
    (lqi nowBits : Nat) :
    (NwkDataIndication st dst p lqi nowBits).g_networkReady =
      st.g_networkReady := by
  simp only [NwkDataIndication]
  split_ifs <;> rfl

lemma step_ready_mono (st : SimState) (e : Event)
    (h : st.g_networkReady = true) : ((step st e).1).g_networkReady = true := by
  cases e with
  | joinConfirm s =>
      cases s <;> simp [step, NwkJoinConfirm, h]
  | sendPeriod src dst now pad => simp [step, SendDataPeriod, h]
  | dataIndication dst p lqi now => simp [step, dataIndication_ready, h]
  | _ => simpa [step] using h

lemma run_ready_mono (evs : List Event) (st : SimState)
    (h : st.g_networkReady = true) : (run st evs).g_networkReady = true := by
  induction evs generalizing st with
  | nil => simpa [run] using h
  | cons e es ih => exact ih _ (step_ready_mono st e h)

lemma step_ready_flip (st : SimState) (e : Event)
    (h0 : st.g_networkReady = false)
    (h1 : ((step st e).1).g_networkReady = true) :
    e = Event.joinConfirm true ∧
      st.g_joinedCount + 1 = g_totalDevices - 1 := by
  cases e with
  | formationConfirm s => simp [step, h0] at h1
  | discoveryConfirm s l => simp [step, h0] at h1
  | routeDiscoveryConfirm s => simp [step, h0] at h1
  | joinConfirm s =>
      cases s with
      | false => simp [step, NwkJoinConfirm, h0] at h1
      | true =>
          by_cases hth : st.g_joinedCount + 1 = g_totalDevices - 1
          · exact ⟨rfl, hth⟩
          · simp [step, NwkJoinConfirm, hth, h0] at h1
  | sendPeriod src dst now pad => simp [step, SendDataPeriod, h0] at h1
  | dataIndication dst p lqi now =>
      rw [step, dataIndication_ready] at h1
      rw [h0] at h1
      exact absurd h1 (by decide)

/-- Claim C2: the readiness flag never reverts and flips exactly at the
threshold.  (1) every single event preserves a true flag; (2) hence over any
whole run a true flag stays true — combined with (3), the flag transitions
false→true at most once per run; (3) the only event that can turn the flag
from false to true is a success join confirmation whose increment makes the
joined counter reach `g_totalDevices - 1`; (4) conversely a success join
confirmation that reaches the threshold does set the flag.  Further join
confirmations, failures, and data traffic never reset it. -/
theorem networkReady_monotone_threshold :
    (∀ (st : SimState) (e : Event), st.g_networkReady = true →
        ((step st e).1).g_networkReady = true) ∧
    (∀ (st : SimState) (evs : List Event), st.g_networkReady = true →
        (run st evs).g_networkReady = true) ∧
    (∀ (st : SimState) (e : Event), st.g_networkReady = false →
        ((step st e).1).g_networkReady = true →
        e = Event.joinConfirm true ∧
          st.g_joinedCount + 1 = g_totalDevices - 1) ∧
    (∀ st : SimState, st.g_joinedCount + 1 = g_totalDevices - 1 →
        ((step st (Event.joinConfirm true)).1).g_networkReady = true) :=
  ⟨step_ready_mono, fun st evs => run_ready_mono evs st, step_ready_flip,
    fun st h => by simp [step, NwkJoinConfirm, h]⟩

/-- Witness for C2: from a ready state, a failed join, data traffic and a
further successful join leave the flag true. -/
theorem networkReady_monotone_threshold_witness :
    (run { initState with g_joinedCount := 4, g_networkReady := true }
        [Event.joinConfirm false, Event.dataIndication 1 [] 0 0,
         Event.joinConfirm true]).g_networkReady = true :=
  networkReady_monotone_threshold.2.1 _ _ rfl

lemma dataIndication_seqNo (st : SimState) (dst : Nat) (p : List Nat)
    (lqi nowBits : Nat) :
    (NwkDataIndication st dst p lqi nowBits).g_seqNo = st.g_seqNo := by
  simp only [NwkDataIndication]
  split_ifs <;> rfl

lemma sendLog_seq_mono (evs : List Event) (st : SimState)
    (h : st.g_seqNo + (sendLog st evs).length ≤ 4294967296) :
    List.Pairwise (· < ·) (seqsOf (sendLog st evs)) ∧
    ∀ x ∈ seqsOf (sendLog st evs), st.g_seqNo ≤ x := by
  induction evs generalizing st with
  | nil => simp [sendLog, seqsOf]
  | cons e es ih =>
    cases e with
    | formationConfirm s =>
        simpa [sendLog, sentOf, step] using ih st (by simpa [sendLog, sentOf, step] using h)
    | discoveryConfirm s l =>
        simpa [sendLog, sentOf, step] using ih st (by simpa [sendLog, sentOf, step] using h)
    | routeDiscoveryConfirm s =>
        simpa [sendLog, sentOf, step] using ih st (by simpa [sendLog, sentOf, step] using h)
    | joinConfirm s =>
        have hseq : ((step st (Event.joinConfirm s)).1).g_seqNo = st.g_seqNo := by
          cases s <;> simp [step, NwkJoinConfirm]
        have hnone : sentOf st (Event.joinConfirm s) = [] := by
          cases s <;> simp [sentOf, step, NwkJoinConfirm]
        rw [sendLog, hnone, List.nil_append]
        rw [sendLog, hnone, List.nil_append, ← hseq] at h
        have := ih _ h
        rwa [hseq] at this
    | dataIndication dst p lqi now =>
        have hseq : ((step st (Event.dataIndication dst p lqi now)).1).g_seqNo =
            st.g_seqNo := by
          simp [step, dataIndication_seqNo]
        have hnone : sentOf st (Event.dataIndication dst p lqi now) = [] := by
          simp [sentOf, step]
        rw [sendLog, hnone, List.nil_append]
        rw [sendLog, hnone, List.nil_append, ← hseq] at h
        have := ih _ h
        rwa [hseq] at this
    | sendPeriod src dst now pad =>
        by_cases hr : st.g_networkReady = true
        · have hsent : sentOf st (Event.sendPeriod src dst now pad) =
              [(dst, buildPayload src st.g_seqNo now pad)] := by
            simp [sentOf, step, SendDataPeriod, hr]
          have hseq : ((step st (Event.sendPeriod src dst now pad)).1).g_seqNo =
              (st.g_seqNo + 1) % 4294967296 := by
            simp [step, SendDataPeriod, hr]
          rw [sendLog, hsent] at h
          simp only [List.singleton_append, List.length_cons] at h
          have hlt : st.g_seqNo < 4294967296 := by omega
          have hhd : headerSeq (buildPayload src st.g_seqNo now pad) =
              st.g_seqNo := headerSeq_buildPayload _ _ _ _ hlt
          have hlist : seqsOf (sendLog st (Event.sendPeriod src dst now pad :: es)) =
              st.g_seqNo ::
                seqsOf (sendLog (step st (Event.sendPeriod src dst now pad)).1 es) := by
            rw [sendLog, hsent]
            simp [seqsOf, hhd]
          rw [hlist]
          by_cases hwrap : st.g_seqNo + 1 < 4294967296
          · have hmod : ((step st (Event.sendPeriod src dst now pad)).1).g_seqNo =
                st.g_seqNo + 1 := by
              rw [hseq]; exact Nat.mod_eq_of_lt hwrap
            obtain ⟨pw, lb⟩ := ih _ (by rw [hmod]; omega)
            rw [hmod] at lb
            refine ⟨List.pairwise_cons.mpr
              ⟨fun x hx => by have := lb x hx; omega, pw⟩, ?_⟩
            intro x hx
            rcases List.mem_cons.mp hx with hx | hx
            · omega
            · have := lb x hx
              omega
          · have hlen : (sendLog (step st (Event.sendPeriod src dst now pad)).1
                es).length = 0 := by omega
            have hnil : sendLog (step st (Event.sendPeriod src dst now pad)).1
                es = [] := List.length_eq_zero.mp hlen
            rw [hnil]
            simp [seqsOf]
        · have hr' : st.g_networkReady = false := by
            cases hb : st.g_networkReady
            · rfl
            · exact absurd hb hr
          have hstep : step st (Event.sendPeriod src dst now pad) = (st, []) := by
            simp [step, SendDataPeriod, hr']
          rw [sendLog, hstep] at h ⊢
          simp only [sentOf, hstep, List.filterMap_nil, List.nil_append] at h ⊢
          exact ih st h

/-- Claim C4: sequence numbers strictly increase in send order across the
whole run, regardless of which source/destination pair generated a packet:
the counter is process-wide and incremented on every send.  The hypothesis
rules out wrap-around of the `uint32_t` counter, which would need more than
`2^32` sends in one run (a 60-second run sends a few hundred packets). -/
theorem sentSeqs_strictMono (evs : List Event)
    (h : (sendLog initState evs).length ≤ 4294967296) :
    List.Pairwise (· < ·) (seqsOf (sendLog initState evs)) :=
  (sendLog_seq_mono evs initState (by simpa [initState] using h)).1

/-- Witness for C4: four successful joins make the network ready, then two
sends to different destinations carry sequence numbers 0 < 1. -/
theorem sentSeqs_strictMono_witness :
    List.Pairwise (· < ·) (seqsOf (sendLog initState
      [Event.joinConfirm true, Event.joinConfirm true, Event.joinConfirm true,
       Event.joinConfirm true, Event.sendPeriod 0 1 5 [],
       Event.sendPeriod 0 2 6 []])) :=
  sentSeqs_strictMono _ (by decide)

/-! ### Received-count vs sent-count accounting (for the PDR bounds)

`recvPackets` of a destination counts exactly the tracker entries of that
destination; every tracker entry's (source, sequence) pair was parsed out of
some packet previously sent to that destination; distinct tracker entries of
one destination have distinct pairs.  Hence `recvPackets ≤ sentPackets`. -/

/-- The (source id, sequence) header pairs of the packets sent to `d`. -/
def sentPairsTo (log : List (Nat × List Nat)) (d : Nat) : List (Nat × Nat) :=
  (log.filter fun r => r.1 == d).map fun r => (headerSrcId r.2, headerSeq r.2)

/-- Run invariant tying the QoS counters to the dedup tracker and to the
packets handed to the transport so far (`log`). -/
structure Inv (st : SimState) (log : List (Nat × List Nat)) : Prop where
  recvEq : ∀ d, (st.qosMap d).recvPackets =
    (st.receivedTracker.filter fun t => t.1 == d).length
  nodup : st.receivedTracker.Nodup
  trackedSent : ∀ t ∈ st.receivedTracker, t.2 ∈ sentPairsTo log t.1
  sentEq : ∀ d, (st.qosMap d).sentPackets =
    (log.filter fun r => r.1 == d).length

lemma sentPairsTo_append (log log₂ : List (Nat × List Nat)) (d : Nat) :
    sentPairsTo (log ++ log₂) d = sentPairsTo log d ++ sentPairsTo log₂ d := by
  simp [sentPairsTo, List.filter_append]

lemma inv_init : Inv initState [] := by
  refine ⟨fun d => rfl, List.nodup_nil, ?_, fun d => rfl⟩
  intro t ht
  simp [initState] at ht

/-- Duplicate-free tracker entries of one destination inject (via their
header pair) into the packets sent to that destination. -/
lemma tracked_le_sent (tracker : List (Nat × Nat × Nat))
    (log : List (Nat × List Nat)) (d : Nat) (hnd : tracker.Nodup)
    (hts : ∀ t ∈ tracker, t.2 ∈ sentPairsTo log t.1) :
    (tracker.filter fun t => t.1 == d).length ≤
      (log.filter fun r => r.1 == d).length := by
  have hlen : ((tracker.filter fun t => t.1 == d).map
      fun t => t.2).length =
      (tracker.filter fun t => t.1 == d).length :=
    List.length_map _ _
  rw [← hlen]
  have hnd' : ((tracker.filter fun t => t.1 == d).map
      fun t => t.2).Nodup := by
    refine (hnd.filter _).map_on ?_
    intro x hx y hy hxy
    have hxd : x.1 = d := by
      have := (List.mem_filter.mp hx).2
      simpa using this
    have hyd : y.1 = d := by
      have := (List.mem_filter.mp hy).2
      simpa using this
    exact Prod.ext (hxd.trans hyd.symm) hxy
  have hsub : ((tracker.filter fun t => t.1 == d).map
      fun t => t.2) ⊆ sentPairsTo log d := by
    intro x hx
    rcases List.mem_map.mp hx with ⟨t, ht, hteq⟩
    have htd : t.1 = d := by
      have := (List.mem_filter.mp ht).2
      simpa using this
    have := hts t (List.mem_filter.mp ht).1
    rw [htd] at this
    rwa [hteq] at this
  have := (hnd'.subperm hsub).length_le
  calc ((tracker.filter fun t => t.1 == d).map
        fun t => t.2).length ≤
      (sentPairsTo log d).length := this
    _ = (log.filter fun r => r.1 == d).length := List.length_map _ _

lemma inv_step (st : SimState) (log : List (Nat × List Nat)) (e : Event)
    (hinv : Inv st log)
    (hwf : ∀ dst p lqi now, e = Event.dataIndication dst p lqi now →
      (dst, p) ∈ log)
    (hlen : log.length + (sentOf st e).length < 4294967296) :
    Inv (step st e).1 (log ++ sentOf st e) := by
  cases e with
  | formationConfirm s => simpa [step, sentOf] using hinv
  | discoveryConfirm s l => simpa [step, sentOf] using hinv
  | routeDiscoveryConfirm s => simpa [step, sentOf] using hinv
  | joinConfirm s =>
      cases s with
      | false => simpa [step, NwkJoinConfirm, sentOf] using hinv
      | true =>
          refine ⟨?_, ?_, ?_, ?_⟩
          · intro d
            simpa [step, NwkJoinConfirm, sentOf] using hinv.recvEq d
          · simpa [step, NwkJoinConfirm] using hinv.nodup
          · intro t ht
            have h2 : t ∈ st.receivedTracker := by
              simpa [step, NwkJoinConfirm] using ht
            simpa [sentOf, step, NwkJoinConfirm] using hinv.trackedSent t h2
          · intro d
            simpa [step, NwkJoinConfirm, sentOf] using hinv.sentEq d
  | sendPeriod src dst now pad =>
      by_cases hr : st.g_networkReady = true
      · have hstep : step st (Event.sendPeriod src dst now pad) =
            ({ st with
              g_seqNo := (st.g_seqNo + 1) % 4294967296,
              qosMap := fun d =>
                if d = dst then
                  { st.qosMap dst with
                    sentPackets :=
                      ((st.qosMap dst).sentPackets + 1) % 4294967296 }
                else st.qosMap d },
             [Action.sendPacket dst (buildPayload src st.g_seqNo now pad),
              Action.rescheduleSend src dst]) := by
          simp [step, SendDataPeriod, hr]
        have hsent : sentOf st (Event.sendPeriod src dst now pad) =
            [(dst, buildPayload src st.g_seqNo now pad)] := by
          simp [sentOf, hstep]
        rw [hsent, List.length_cons, List.length_nil] at hlen
        have hmodid : ((st.qosMap dst).sentPackets + 1) % 4294967296 =
            (st.qosMap dst).sentPackets + 1 := by
          rw [hinv.sentEq dst]
          have := List.length_filter_le (fun r => r.1 == dst) log
          omega
        refine ⟨?_, ?_, ?_, ?_⟩
        · intro d
          by_cases hd : d = dst
          · simp [hstep, hd, hinv.recvEq dst]
          · have hd' : ¬ dst = d := fun h => hd h.symm
            simp [hstep, hd, hd', hinv.recvEq d]
        · simpa [hstep] using hinv.nodup
        · intro t ht
          rw [hsent, sentPairsTo_append]
          have : t ∈ st.receivedTracker := by simpa [hstep] using ht
          exact List.mem_append_left _ (hinv.trackedSent t this)
        · intro d
          rw [hsent]
          by_cases hd : d = dst
          · have hfll := List.length_filter_le (fun r => r.1 == dst) log
            simp [hstep, hd, hmodid, hinv.sentEq dst, List.filter_append]
            omega
          · have hd' : ¬ dst = d := fun h => hd h.symm
            simp [hstep, hd, hd', hinv.sentEq d, List.filter_append]
      · have hr' : st.g_networkReady = false := by
          cases hb : st.g_networkReady
          · rfl
          · exact absurd hb hr
        have hstep : step st (Event.sendPeriod src dst now pad) = (st, []) := by
          simp [step, SendDataPeriod, hr']
        refine ⟨?_, ?_, ?_, ?_⟩ <;>
          simp only [hstep, sentOf, List.filterMap_nil, List.append_nil]
        exacts [hinv.recvEq, hinv.nodup, hinv.trackedSent, hinv.sentEq]
  | dataIndication dst p lqi now =>
      have hlog : (dst, p) ∈ log := hwf dst p lqi now rfl
      have hsent : sentOf st (Event.dataIndication dst p lqi now) = [] := by
        simp [sentOf, step]
      rw [hsent, List.append_nil]
      rw [step]
      by_cases hp : p.length < 16
      · simpa [NwkDataIndication, hp] using hinv
      · by_cases hmem : (dst, headerSrcId p, headerSeq p) ∈ st.receivedTracker
        · simpa [NwkDataIndication, hp, hmem] using hinv
        · have hind : NwkDataIndication st dst p lqi now =
              { st with
                receivedTracker :=
                  (dst, headerSrcId p, headerSeq p) :: st.receivedTracker,
                qosMap := fun d =>
                  if d = dst then
                    { st.qosMap dst with
                      recvPackets :=
                        ((st.qosMap dst).recvPackets + 1) % 4294967296,
                      sumDelays := (st.qosMap dst).sumDelays +
                        ((now : Int) - (headerTimeBits p : Int)),
                      sumLqi := (st.qosMap dst).sumLqi + lqi }
                  else st.qosMap d } := by
            simp [NwkDataIndication, hp, hmem]
          have hnd' : ((dst, headerSrcId p, headerSeq p) ::
              st.receivedTracker).Nodup :=
            List.nodup_cons.mpr ⟨hmem, hinv.nodup⟩
          have hts' : ∀ t ∈ (dst, headerSrcId p, headerSeq p) ::
              st.receivedTracker, t.2 ∈ sentPairsTo log t.1 := by
            intro t ht
            simp only [List.mem_cons] at ht
            rcases ht with ht | ht
            · subst ht
              simp only [sentPairsTo]
              exact List.mem_map_of_mem _
                (List.mem_filter.mpr ⟨hlog, by simp⟩)
            · exact hinv.trackedSent t ht
          have hcount := tracked_le_sent _ log dst hnd' hts'
          have hnewlen : ((((dst, headerSrcId p, headerSeq p) ::
              st.receivedTracker)).filter fun t => t.1 == dst).length =
              (st.receivedTracker.filter fun t => t.1 == dst).length + 1 := by
            simp [List.filter_cons]
          have hfl := List.length_filter_le (fun r => r.1 == dst) log
          rw [hsent, List.length_nil] at hlen
          have hmodid : ((st.qosMap dst).recvPackets + 1) % 4294967296 =
              (st.qosMap dst).recvPackets + 1 := by
            rw [hinv.recvEq dst]
            omega
          refine ⟨?_, ?_, ?_, ?_⟩
          · intro d
            by_cases hd : d = dst
            · simp [hind, hd, hmodid, List.filter_cons, hinv.recvEq dst]
              omega
            · have hd' : ¬ dst = d := fun h => hd h.symm
              simp [hind, hd, hd', List.filter_cons, hinv.recvEq d]
          · rw [hind]
            exact hnd'
          · intro t ht
            rw [hind] at ht
            exact hts' t ht
          · intro d
            by_cases hd : d = dst
            · simp [hind, hd, hinv.sentEq dst]
            · have hd' : ¬ dst = d := fun h => hd h.symm
              simp [hind, hd, hd', hinv.sentEq d]

lemma inv_run (evs : List Event) (st : SimState)
    (log : List (Nat × List Nat)) (hinv : Inv st log)
    (hwf : wfTrace st log evs = true)
    (hlen : log.length + (sendLog st evs).length < 4294967296) :
    ∃ log', Inv (run st evs) log' := by
  induction evs generalizing st log with
  | nil => exact ⟨log, hinv⟩
  | cons e es ih =>
      rw [wfTrace, Bool.and_eq_true] at hwf
      rw [sendLog, List.length_append] at hlen
      have hcond : ∀ dst p lqi now,
          e = Event.dataIndication dst p lqi now → (dst, p) ∈ log := by
        intro dst p lqi now he
        subst he
        have := hwf.1
        simpa [deliveredOk] using this
      refine ih _ _ (inv_step st log e hinv hcond (by omega)) hwf.2 ?_
      rw [List.length_append]
      omega

lemma recv_le_sent_of_inv (st : SimState) (log : List (Nat × List Nat))
    (hinv : Inv st log) (d : Nat) :
    (st.qosMap d).recvPackets ≤ (st.qosMap d).sentPackets := by
  rw [hinv.recvEq d, hinv.sentEq d]
  have hlen : ((st.receivedTracker.filter fun t => t.1 == d).map
      fun t => t.2).length =
      (st.receivedTracker.filter fun t => t.1 == d).length :=
    List.length_map _ _
  rw [← hlen]
  have hnd : ((st.receivedTracker.filter fun t => t.1 == d).map
      fun t => t.2).Nodup := by
    refine (hinv.nodup.filter _).map_on ?_
    intro x hx y hy hxy
    have hxd : x.1 = d := by
      have := (List.mem_filter.mp hx).2
      simpa using this
    have hyd : y.1 = d := by
      have := (List.mem_filter.mp hy).2
      simpa using this
    exact Prod.ext (hxd.trans hyd.symm) hxy
  have hsub : ((st.receivedTracker.filter fun t => t.1 == d).map
      fun t => t.2) ⊆ sentPairsTo log d := by
    intro x hx
    rcases List.mem_map.mp hx with ⟨t, ht, hteq⟩
    have htd : t.1 = d := by
      have := (List.mem_filter.mp ht).2
      simpa using this
    have := hinv.trackedSent t (List.mem_filter.mp ht).1
    rw [htd] at this
    rwa [hteq] at this
  have := (hnd.subperm hsub).length_le
  calc ((st.receivedTracker.filter fun t => t.1 == d).map
        fun t => t.2).length ≤
      (sentPairsTo log d).length := this
    _ = (log.filter fun r => r.1 == d).length := List.length_map _ _

/-- Claim C6: for every destination of the final ZigBee QoS report, the
reported PDR is `recvPackets / sentPackets` exactly as `PrintZigbeeQoS`
computes it, lies in `[0, 1]`, and is `0` when `sentPackets = 0` — the
`sent > 0` guard means no division by zero ever occurs.  The upper bound
holds for every run in which each data indication delivers a packet
previously handed to the transport for that destination (`wfTrace`): then a
destination accepts at most one packet per distinct header pair, so
`recvPackets ≤ sentPackets`.  The second hypothesis rules out wrap-around of
the `uint32_t` QoS counters: fewer than `2^32` sends in the run keeps every
`sentPackets` below `2^32`, and since accepted deliveries at a destination
never outnumber the packets sent to it, every `recvPackets` as well (a 60 s
run sends a few hundred packets). -/
theorem qos_report_pdr_bounds (evs : List Event)
    (hwf : wfTrace initState [] evs = true)
    (hsends : (sendLog initState evs).length < 4294967296) (d : Nat) :
    pdrOf ((run initState evs).qosMap d) =
      (if ((run initState evs).qosMap d).sentPackets > 0
       then (((run initState evs).qosMap d).recvPackets : ℚ) /
         (((run initState evs).qosMap d).sentPackets : ℚ)
       else 0) ∧
    0 ≤ pdrOf ((run initState evs).qosMap d) ∧
    pdrOf ((run initState evs).qosMap d) ≤ 1 ∧
    (((run initState evs).qosMap d).sentPackets = 0 →
      pdrOf ((run initState evs).qosMap d) = 0) := by
  obtain ⟨log', hinv⟩ := inv_run evs initState [] inv_init hwf
    (by simpa using hsends)
  have hle : ((run initState evs).qosMap d).recvPackets ≤
      ((run initState evs).qosMap d).sentPackets :=
    recv_le_sent_of_inv _ _ hinv d
  refine ⟨rfl, ?_, ?_, ?_⟩
  · rw [pdrOf]
    split_ifs
    · positivity
    · exact le_refl 0
  · rw [pdrOf]
    split_ifs with hpos
    · rw [div_le_one (by exact_mod_cast hpos)]
      exact_mod_cast hle
    · exact zero_le_one
  · intro h0
    rw [pdrOf, if_neg (by omega)]

/-- Witness for C6: a concrete well-formed run (four successful joins, one
send to node 1, the matching delivery) at destination 1. -/
theorem qos_report_pdr_bounds_witness :
    pdrOf ((run initState
        [Event.joinConfirm true, Event.joinConfirm true,
         Event.joinConfirm true, Event.joinConfirm true,
         Event.sendPeriod 0 1 5 [],
         Event.dataIndication 1 (buildPayload 0 0 5 []) 200 9]).qosMap 1) =
      (if ((run initState
        [Event.joinConfirm true, Event.joinConfirm true,
         Event.joinConfirm true, Event.joinConfirm true,
         Event.sendPeriod 0 1 5 [],
         Event.dataIndication 1 (buildPayload 0 0 5 []) 200 9]).qosMap
          1).sentPackets > 0
       then (((run initState
        [Event.joinConfirm true, Event.joinConfirm true,
         Event.joinConfirm true, Event.joinConfirm true,
         Event.sendPeriod 0 1 5 [],
         Event.dataIndication 1 (buildPayload 0 0 5 []) 200 9]).qosMap
          1).recvPackets : ℚ) /
         (((run initState
        [Event.joinConfirm true, Event.joinConfirm true,
         Event.joinConfirm true, Event.joinConfirm true,
         Event.sendPeriod 0 1 5 [],
         Event.dataIndication 1 (buildPayload 0 0 5 []) 200 9]).qosMap
          1).sentPackets : ℚ)
       else 0) ∧
    0 ≤ pdrOf ((run initState
        [Event.joinConfirm true, Event.joinConfirm true,
         Event.joinConfirm true, Event.joinConfirm true,
         Event.sendPeriod 0 1 5 [],
         Event.dataIndication 1 (buildPayload 0 0 5 []) 200 9]).qosMap 1) ∧
    pdrOf ((run initState
        [Event.joinConfirm true, Event.joinConfirm true,
         Event.joinConfirm true, Event.joinConfirm true,
         Event.sendPeriod 0 1 5 [],
         Event.dataIndication 1 (buildPayload 0 0 5 []) 200 9]).qosMap 1) ≤ 1 ∧
    (((run initState
        [Event.joinConfirm true, Event.joinConfirm true,
         Event.joinConfirm true, Event.joinConfirm true,
         Event.sendPeriod 0 1 5 [],
         Event.dataIndication 1 (buildPayload 0 0 5 []) 200 9]).qosMap
          1).sentPackets = 0 →
      pdrOf ((run initState
        [Event.joinConfirm true, Event.joinConfirm true,
         Event.joinConfirm true, Event.joinConfirm true,
         Event.sendPeriod 0 1 5 [],
         Event.dataIndication 1 (buildPayload 0 0 5 []) 200 9]).qosMap 1) = 0) :=
  qos_report_pdr_bounds
    [Event.joinConfirm true, Event.joinConfirm true, Event.joinConfirm true,
     Event.joinConfirm true, Event.sendPeriod 0 1 5 [],
     Event.dataIndication 1 (buildPayload 0 0 5 []) 200 9] (by decide)
    (by decide) 1

end WifiZigbee
